import Mathlib

/-!
Verification of the partitioned table IO-manager core of the repository
(the `dagster-snowflake-polars` type handler and the db IO-manager protocol
it plugs into).  The repository excerpt contains only the integration test
suite for this core (`test_snowflake_polars_type_handler.py`); the handler
itself is modelled from the specification, with the test suite's concrete
assertions (exact SELECT text, metadata keys, partition scenarios) fixing
the observable behaviour.
-/

namespace Dagster

/-- Modelled from the spec: a cell value of a columnar dataframe / warehouse
table.  The core distinguishes string, integer and timestamp semantic types
(spec §4.5: numeric, string, timestamp); timestamps are carried as integer
instants on a monotonic timeline. -/
inductive Value where
  | str (s : String)
  | int (n : Int)
  | timestamp (t : Int)
deriving DecidableEq, Repr

/-- Modelled from the spec: the dtype name reported for a value, as the
polars-facing schema names them (`String`, `Int64`, `Datetime` — the dtype
names asserted by `test_handle_output` and
`test_io_manager_with_snowflake_polars_timestamp_data`). -/
def Value.dtypeName : Value → String
  | .str _ => "String"
  | .int _ => "Int64"
  | .timestamp _ => "Datetime"

/-- A row of a dataframe or of the warehouse table: named, typed cells. -/
abbrev Row : Type := List (String × Value)

/-- The warehouse table contents: a bag of rows, insertion-ordered. -/
abbrev Table : Type := List Row

/-- Modelled from the spec: the value set of one partition dimension —
either a half-open time window `[start, stop)` (time-window / daily
partitions) or a set of categorical values (static / dynamic partitions)
(spec §3 PartitionDimension, §4.2). -/
inductive PartitionValues where
  | timeWindow (start stop : Int)
  | categories (vals : List String)
deriving DecidableEq, Repr

/-- Modelled from the spec: one axis of partitioning: a dimension name, the
column/SQL expression it filters on, and its partition value set
(spec §3 PartitionDimension). -/
structure PartitionDimension where
  name : String
  expression : String
  partitions : PartitionValues
deriving DecidableEq, Repr

/-- Modelled from the spec: a TableSlice identifies a logical subset of a
table's rows — database, schema, table, optional column projection and the
partition dimensions (spec §3 TableSlice). -/
structure TableSlice where
  database : String
  schema : String
  table : String
  columns : Option (List String)
  partition_dimensions : List PartitionDimension
deriving DecidableEq, Repr

/-- The slice addressing the whole table: same coordinates, no partition
dimensions, no projection. -/
def wholeTable (s : TableSlice) : TableSlice :=
  { s with partition_dimensions := [], columns := none }

/-- Modelled from the spec: does a value satisfy a dimension's partition
value set?  Time windows use inclusive-start / exclusive-end semantics;
categorical dimensions use membership (equality) (spec §4.2). -/
def valueInPartitions : PartitionValues → Value → Bool
  | .timeWindow a b, .timestamp t => decide (a ≤ t) && decide (t < b)
  | .categories vs, .str s => vs.contains s
  | _, _ => false

/-- Modelled from the spec: a row satisfies one partition dimension iff the
column the dimension filters on is present and its value lies in the
dimension's partition value set (spec §4.2 `predicate_for`). -/
def dimMatches (d : PartitionDimension) (r : Row) : Bool :=
  match List.lookup d.expression r with
  | some v => valueInPartitions d.partitions v
  | none => false

/-- Modelled from the spec: the composed row-selecting predicate of a slice
is the conjunction (logical AND) of all per-dimension predicates; an empty
dimension list yields no predicate, so every row is addressed
(spec §4.2, §4.4, §4.5). -/
def rowMatchesSlice (s : TableSlice) (r : Row) : Bool :=
  s.partition_dimensions.all (fun d => dimMatches d r)

/-- Modelled from the spec: the read protocol — select the rows of the
table matching the slice's composed predicate (spec §4.5 step 1). -/
def read (s : TableSlice) (t : Table) : Table :=
  List.filter (fun r => rowMatchesSlice s r) t

/-- Modelled from the spec: the write/merge protocol.  With partition
dimensions present, delete the rows matching the composed predicate and
insert the payload's rows; with no partition dimensions, replace the whole
table with the payload (spec §4.4 steps 1–2). -/
def write (s : TableSlice) (df : Table) (t : Table) : Table :=
  match s.partition_dimensions with
  | [] => df
  | _ :: _ => List.filter (fun r => !rowMatchesSlice s r) t ++ df

/-! ### Identifier quoting utility (spec §4.1) -/

/-- Characters allowed in an unquoted identifier: `[A-Za-z0-9_]`. -/
def isSafeChar (c : Char) : Bool :=
  (c ≥ 'a' && c ≤ 'z') || (c ≥ 'A' && c ≤ 'Z') || (c ≥ '0' && c ≤ '9') || c = '_'

/-- Modelled from the spec: reserved keywords of the target store's SQL
dialect, compared case-insensitively (spec §4.1; the test suite uses `by`
as its reserved example). -/
def reservedKeywords : List String :=
  ["by", "select", "from", "where", "and", "or", "not", "in", "as", "on",
   "order", "group", "table", "create", "insert", "delete", "update",
   "join", "null", "case", "when", "then", "else", "end", "to", "with"]

/-- Is this character list, lowercased, a reserved keyword? -/
def isReserved (cs : List Char) : Bool :=
  reservedKeywords.contains (String.mk (cs.map Char.toLower))

/-- Modelled from the spec: an identifier needs quoting when it is empty,
begins with a digit, contains a character outside `[A-Za-z0-9_]`, or is a
reserved keyword (case-insensitive) (spec §4.1). -/
def needsQuoting (cs : List Char) : Bool :=
  match cs with
  | [] => true
  | c :: _ => (c ≥ '0' && c ≤ '9') || !(cs.all isSafeChar) || isReserved cs

/-- Is this character list already a quoted form (delimited by double
quotes)? -/
def isQuotedForm (cs : List Char) : Bool :=
  decide (2 ≤ cs.length) && decide (cs.head? = some '"') &&
    decide (cs.getLast? = some '"')

/-- Modelled from the spec: the identifier quoting utility on character
lists — an already-quoted identifier is returned unchanged (idempotence,
spec §4.1), an unsafe identifier is wrapped in double quotes, and a safe
one is returned unchanged. -/
def quoteChars (cs : List Char) : List Char :=
  if isQuotedForm cs then cs
  else if needsQuoting cs then '"' :: (cs ++ ['"'])
  else cs

/-- The identifier quoting utility on strings (spec §4.1). -/
def quoteIdentifier (s : String) : String :=
  String.mk (quoteChars s.data)

/-- An identifier already safe per spec §4.1: alphanumeric/underscore
characters only, not starting with a digit, not a reserved keyword — i.e.
one that needs no quoting. -/
def isSafeIdentifier (s : String) : Bool :=
  !needsQuoting s.data

/-- Modelled from the spec: the store accepts an identifier in DDL and DML
iff it is a plain safe identifier (needs no quoting) or a properly quoted
form whose interior contains no raw double quote (spec §4.1, §6 SQL dialect
surface). -/
def storeAccepts (cs : List Char) : Bool :=
  !needsQuoting cs ||
    (isQuotedForm cs && ((cs.drop 1).dropLast.all (fun c => !(c == '"'))))

/-! ### Table slice addressing and statement building (spec §4.3) -/

/-- Modelled from the spec: the dialect-qualified `database.schema.table`
name of a slice (spec §4.3 `qualified_name`). -/
def qualifiedName (s : TableSlice) : String :=
  s.database ++ "." ++ s.schema ++ "." ++ s.table

/-- Render a partition value for use in a SQL literal. -/
def valueSQL : Value → String
  | .str v => "'" ++ v ++ "'"
  | .int n => toString n
  | .timestamp t => "'" ++ toString t ++ "'"

/-- Modelled from the spec: the SQL predicate of one partition dimension —
a half-open range comparison for a time-window dimension, a membership
test for a categorical dimension (spec §4.2 `predicate_for`). -/
def dimPredicateSQL (d : PartitionDimension) : String :=
  match d.partitions with
  | .timeWindow a b =>
      d.expression ++ " >= '" ++ toString a ++ "' AND " ++
        d.expression ++ " < '" ++ toString b ++ "'"
  | .categories vs =>
      d.expression ++ " in (" ++
        String.intercalate ", " (vs.map (fun v => "'" ++ v ++ "'")) ++ ")"

/-- Modelled from the spec: the WHERE clause composed from the slice's
partition dimensions, the per-dimension predicates joined by AND; empty
dimensions yield no clause at all (spec §4.2 composition, §4.3). -/
def whereClause (s : TableSlice) : String :=
  match s.partition_dimensions with
  | [] => ""
  | dims => " WHERE " ++ String.intercalate " AND " (dims.map dimPredicateSQL)

/-- The SELECT list: the projected columns, or `*` when no projection. -/
def selectList (s : TableSlice) : String :=
  match s.columns with
  | none => "*"
  | some cols => String.intercalate ", " cols

/-- Modelled from the spec: the statement issued by the read protocol —
`SELECT <columns or *> FROM qualified_name [WHERE <composed predicate>]`
(spec §4.3 `select_statement`, §4.5 step 1; `test_load_input` asserts the
exact text for the no-partition, no-projection case). -/
def selectStatement (s : TableSlice) : String :=
  "SELECT " ++ selectList s ++ " FROM " ++ qualifiedName s ++ whereClause s

/-! ### Output metadata and the handler operations (spec §4.4, §4.5) -/

/-- Modelled from the spec: the observability metadata returned by a write:
row count written and the inferred column schema, name and dtype per column
(spec §4.4 step 6, §6 metadata emitted; `test_handle_output` asserts the
`dagster/row_count` and `dataframe_columns` entries). -/
structure OutputMetadata where
  rowCount : Nat
  dataframeColumns : List (String × String)
deriving DecidableEq, Repr

/-- Modelled from the spec: the column schema inferred from a dataframe:
each column's name paired with its dtype name, read off the first row
(spec §4.4 step 1: schema inferred from the dataframe's column types). -/
def inferSchema (df : Table) : List (String × String) :=
  match df with
  | [] => []
  | r :: _ => r.map (fun p => (p.1, p.2.dtypeName))

/-- Modelled from the spec: `handle_output` — run the write/merge protocol
and return the mutated table together with the observability metadata
(spec §4.4). -/
def handle_output (s : TableSlice) (df : Table) (t : Table) :
    Table × OutputMetadata :=
  (write s df t, { rowCount := df.length, dataframeColumns := inferSchema df })

/-- Modelled from the spec: the per-value type conversion applied when
materializing a result set: timestamps are kept as datetime values unless
string conversion is explicitly configured (`time_data_to_string`), in
which case they are rendered as strings (spec §4.5 step 2). -/
def convertValue (timeDataToString : Bool) (v : Value) : Value :=
  match v with
  | .timestamp t => if timeDataToString then .str (toString t) else .timestamp t
  | v => v

/-- Lowercase a column name character by character. -/
def lowerName (s : String) : String :=
  String.mk (s.data.map Char.toLower)

/-- Uppercase a column name character by character. -/
def upperName (s : String) : String :=
  String.mk (s.data.map Char.toUpper)

/-- Modelled from the spec: `load_input` — run the read protocol and
materialize the result into a dataframe: the store reports column names
uppercased, and the handler renames every column to lowercase while
converting values per configuration (spec §4.5; `test_load_input` asserts
the lowercase renaming of `COL1`, `COL2`). -/
def load_input (timeDataToString : Bool) (s : TableSlice) (t : Table) :
    Table :=
  (read s t).map
    (fun r => r.map
      (fun p => (lowerName p.1, convertValue timeDataToString p.2)))

/-- Modelled from the spec: the store reports unquoted column names
uppercased in its cursor description (the mocked description of
`test_load_input` reports `COL1`, `COL2` for columns written as `col1`,
`col2`); this renames a stored row's columns the way the store reports
them. -/
def uppercaseRow (r : Row) : Row :=
  r.map (fun p => (upperName p.1, p.2))

/-! ### Input validation (spec §4.3, §7) -/

/-- Modelled from the spec: the error taxonomy relevant to the core's own
checks — malformed arguments fail fast before the store is touched
(spec §7 invalid-argument). -/
inductive IOManagerError where
  | invalidArgument (msg : String)
deriving DecidableEq, Repr

/-- Modelled from the spec: validation of a TableSlice against the asset's
defined partition dimension names: an empty table name, or a partition
dimension referencing an undefined name, is an invalid-argument error
(spec §4.3, §7). -/
def validateSlice (definedDims : List String) (s : TableSlice) :
    Except IOManagerError Unit :=
  if s.table = "" then
    .error (.invalidArgument "table slice must specify a table name")
  else if s.partition_dimensions.all (fun d => definedDims.contains d.name) then
    .ok ()
  else
    .error (.invalidArgument "partition dimension references an undefined name")

/-- Modelled from the spec: the checked write path — validate the slice
first and fail fast without touching the store; only a valid slice reaches
the write/merge protocol (spec §7: fails fast, not retried). -/
def handleOutputChecked (definedDims : List String) (s : TableSlice)
    (df : Table) (t : Table) : Except IOManagerError (Table × OutputMetadata) :=
  match validateSlice definedDims s with
  | .error e => .error e
  | .ok _ => .ok (handle_output s df t)

/-- Modelled from the spec: the checked read path — validate the slice
first and fail fast without touching the store (spec §7). -/
def loadInputChecked (definedDims : List String) (timeDataToString : Bool)
    (s : TableSlice) (t : Table) : Except IOManagerError Table :=
  match validateSlice definedDims s with
  | .error e => .error e
  | .ok _ => .ok (load_input timeDataToString s t)

/-! ### Self-referential partition resolver (spec §4.6) -/

/-- Modelled from the spec: the slice addressing one daily partition: one
time-window dimension covering the half-open day `[day, day + 1)` on the
given partition expression (spec §4.2 time-window predicate). -/
def dailySlice (base : TableSlice) (expr : String) (day : Int) : TableSlice :=
  { base with
    partition_dimensions :=
      [{ name := expr, expression := expr,
         partitions := .timeWindow day (day + 1) }] }

/-- Modelled from the spec: offset resolution for a self-referential
partition dependency — shift the current key by the fixed offset; when the
shifted key falls before the partition space's defined start there is no
partition to address (spec §4.6). -/
def resolveOffsetKey (startDay key offset : Int) : Option Int :=
  if key + offset < startDay then none else some (key + offset)

/-- Modelled from the spec: read the asset's own offset partition — an
offset pointing before the defined start fails gracefully, producing an
empty result rather than an error (spec §4.6; `test_self_dependent_asset`
relies on the empty dataframe for the first partition). -/
def readOffsetPartition (base : TableSlice) (expr : String)
    (startDay key offset : Int) (t : Table) : Table :=
  match resolveOffsetKey startDay key offset with
  | none => []
  | some k => read (dailySlice base expr k) t

/-! ### Concrete fixtures mirroring the test suite's scenarios -/

/-- The slice addressing the static partition key `red` of the test table
(`test_static_partitioned_asset`, `partition_expr` = `color`). -/
def redSlice : TableSlice :=
  { database := "TEST_SNOWFLAKE_IO_MANAGER",
    schema := "SNOWFLAKE_IO_MANAGER_SCHEMA",
    table := "static_partitioned",
    columns := none,
    partition_dimensions :=
      [{ name := "color", expression := "color",
         partitions := .categories ["red"] }] }

/-- The slice addressing the static partition key `blue` of the same
table. -/
def blueSlice : TableSlice :=
  { redSlice with
    partition_dimensions :=
      [{ name := "color", expression := "color",
         partitions := .categories ["blue"] }] }

/-- The three-row payload the test asset emits: every row tagged with its
partition's color and carrying the configured value
(`test_static_partitioned_asset`). -/
def colorRows (color value : String) : Table :=
  [[("color", Value.str color), ("a", Value.str value), ("b", Value.int 4)],
   [("color", Value.str color), ("a", Value.str value), ("b", Value.int 5)],
   [("color", Value.str color), ("a", Value.str value), ("b", Value.int 6)]]

/-- A daily time-window dimension for one day `[day, day + 1)` on the
`time` column (`test_multi_partitioned_asset`). -/
def timeDim (day : Int) : PartitionDimension :=
  { name := "time", expression := "time",
    partitions := .timeWindow day (day + 1) }

/-- A categorical dimension for one color on the `color` column
(`test_multi_partitioned_asset`). -/
def colorDim (c : String) : PartitionDimension :=
  { name := "color", expression := "color", partitions := .categories [c] }

/-- The slice addressing one multi-dimensional partition key
`{time: day, color: c}` (`test_multi_partitioned_asset`). -/
def multiSlice (day : Int) (c : String) : TableSlice :=
  { database := "TEST_SNOWFLAKE_IO_MANAGER",
    schema := "SNOWFLAKE_IO_MANAGER_SCHEMA",
    table := "multi_partitioned",
    columns := none,
    partition_dimensions := [timeDim day, colorDim c] }

/-- A row of the multi-partitioned test table: a time tag, a color tag and
the configured value. -/
def multiRow (day : Int) (c v : String) : Row :=
  [("time", Value.timestamp day), ("color", Value.str c), ("a", Value.str v)]

/-- The base coordinates of the self-dependent test table
(`test_self_dependent_asset`). -/
def selfDepSlice : TableSlice :=
  { database := "TEST_SNOWFLAKE_IO_MANAGER",
    schema := "SNOWFLAKE_IO_MANAGER_SCHEMA",
    table := "self_dependent_asset",
    columns := none,
    partition_dimensions := [] }

/-- A row of the self-dependent test table: the partition key as a
timestamp and the configured value. -/
def keyRow (day : Int) (v : String) : Row :=
  [("key", Value.timestamp day), ("a", Value.str v)]

/-- The unpartitioned, unprojected slice of `test_load_input`. -/
def loadSlice : TableSlice :=
  { database := "my_db", schema := "my_schema", table := "my_table",
    columns := none, partition_dimensions := [] }

/-! ### Helper lemmas about the protocol -/

theorem filter_not_filter {α : Type} (p : α → Bool) (l : List α) :
    (l.filter fun a => !p a).filter p = [] := by
  induction l with
  | nil => rfl
  | cons a l ih =>
    by_cases h : p a = true
    · simp [List.filter, h, ih]
    · simp only [Bool.not_eq_true] at h
      simp [List.filter, h, ih]

theorem write_dims_empty (s : TableSlice) (df t : Table)
    (h : s.partition_dimensions = []) : write s df t = df := by
  simp [write, h]

theorem write_dims_cons (s : TableSlice) (df t : Table) (d : PartitionDimension)
    (ds : List PartitionDimension) (h : s.partition_dimensions = d :: ds) :
    write s df t = List.filter (fun r => !rowMatchesSlice s r) t ++ df := by
  simp [write, h]

theorem write_to_empty (s : TableSlice) (df : Table) : write s df [] = df := by
  cases h : s.partition_dimensions with
  | nil => simp [write_dims_empty s df [] h]
  | cons d ds => simp [write_dims_cons s df [] d ds h]

theorem read_all_match (s : TableSlice) (t : Table)
    (h : ∀ r ∈ t, rowMatchesSlice s r = true) : read s t = t :=
  List.filter_eq_self.mpr h

theorem read_none_match (s : TableSlice) (t : Table)
    (h : ∀ r ∈ t, rowMatchesSlice s r = false) : read s t = [] := by
  unfold read
  rw [List.filter_eq_nil_iff]
  intro r hm
  simp [h r hm]

theorem read_dims_empty (s : TableSlice) (t : Table)
    (h : s.partition_dimensions = []) : read s t = t :=
  read_all_match s t (fun r _ => by simp [rowMatchesSlice, h])

theorem wholeTable_dims (s : TableSlice) :
    (wholeTable s).partition_dimensions = [] := rfl

theorem read_wholeTable (s : TableSlice) (t : Table) :
    read (wholeTable s) t = t :=
  read_dims_empty (wholeTable s) t (wholeTable_dims s)

theorem write_nonempty_dims (s : TableSlice) (df t : Table)
    (h : s.partition_dimensions ≠ []) :
    write s df t = List.filter (fun r => !rowMatchesSlice s r) t ++ df := by
  cases hd : s.partition_dimensions with
  | nil => exact absurd hd h
  | cons d ds => exact write_dims_cons s df t d ds hd

/-! ### Helper lemmas about identifier quoting -/

theorem needsQuoting_false_not_quotedForm (cs : List Char)
    (h : needsQuoting cs = false) : isQuotedForm cs = false := by
  cases cs with
  | nil => simp [needsQuoting] at h
  | cons c cs' =>
    simp only [needsQuoting, Bool.or_eq_false_iff, Bool.not_eq_false'] at h
    obtain ⟨⟨-, hall⟩, -⟩ := h
    have hc : isSafeChar c = true := by
      simp only [List.all_cons, Bool.and_eq_true] at hall
      exact hall.1
    have hne : c ≠ '"' := by
      intro he
      rw [he] at hc
      exact absurd hc (by decide)
    simp [isQuotedForm, hne]

theorem quoteChars_safe (cs : List Char) (h : needsQuoting cs = false) :
    quoteChars cs = cs := by
  unfold quoteChars
  rw [needsQuoting_false_not_quotedForm cs h, h]
  simp

theorem isQuotedForm_wrap (cs : List Char) :
    isQuotedForm ('"' :: (cs ++ ['"'])) = true := by
  unfold isQuotedForm
  rw [Bool.and_eq_true, Bool.and_eq_true]
  refine ⟨⟨?_, ?_⟩, ?_⟩
  · exact decide_eq_true (by simp)
  · exact decide_eq_true rfl
  · exact decide_eq_true
      (by rw [show ('"' :: (cs ++ ['"'])) = ('"' :: cs) ++ ['"'] from rfl,
        List.getLast?_concat])

theorem quoteChars_idem (cs : List Char) :
    quoteChars (quoteChars cs) = quoteChars cs := by
  by_cases hq : isQuotedForm cs = true
  · have h1 : quoteChars cs = cs := by
      unfold quoteChars
      rw [if_pos hq]
    rw [h1]
    exact h1
  · have hq' : isQuotedForm cs = false := Bool.eq_false_iff.mpr hq
    by_cases hn : needsQuoting cs = true
    · have h1 : quoteChars cs = '"' :: (cs ++ ['"']) := by
        unfold quoteChars
        rw [if_neg (by simp [hq']), if_pos hn]
      rw [h1]
      unfold quoteChars
      rw [if_pos (isQuotedForm_wrap cs)]
    · have hn' : needsQuoting cs = false := Bool.eq_false_iff.mpr hn
      have h1 : quoteChars cs = cs := quoteChars_safe cs hn'
      rw [h1, h1]

theorem storeAccepts_quoteChars (cs : List Char)
    (h : cs.all (fun c => !(c == '"')) = true) :
    storeAccepts (quoteChars cs) = true := by
  by_cases hq : isQuotedForm cs = true
  · exfalso
    cases cs with
    | nil => simp [isQuotedForm] at hq
    | cons c cs' =>
      simp only [isQuotedForm, Bool.and_eq_true, decide_eq_true_eq] at hq
      have hhead : c = '"' := Option.some.inj hq.1.2
      simp only [List.all_cons, Bool.and_eq_true] at h
      have hc := h.1
      rw [hhead] at hc
      exact absurd hc (by decide)
  · have hq' : isQuotedForm cs = false := Bool.eq_false_iff.mpr hq
    by_cases hn : needsQuoting cs = true
    · have h1 : quoteChars cs = '"' :: (cs ++ ['"']) := by
        unfold quoteChars
        rw [if_neg (by simp [hq']), if_pos hn]
      rw [h1]
      unfold storeAccepts
      rw [Bool.or_eq_true]
      right
      rw [Bool.and_eq_true]
      refine ⟨isQuotedForm_wrap cs, ?_⟩
      have hdrop : (('"' :: (cs ++ ['"'])).drop 1).dropLast = cs := by
        rw [List.drop_one, List.tail_cons, List.dropLast_concat]
      rw [hdrop]
      exact h
    · have hn' : needsQuoting cs = false := Bool.eq_false_iff.mpr hn
      rw [quoteChars_safe cs hn']
      unfold storeAccepts
      rw [Bool.or_eq_true]
      left
      rw [hn']
      rfl

/-- A categorical dimension matches a row iff the filtered column holds a
string value belonging to the dimension's category set. -/
theorem dimMatches_categories (n e : String) (vs : List String) (r : Row) :
    dimMatches ⟨n, e, .categories vs⟩ r = true ↔
      ∃ c, List.lookup e r = some (Value.str c) ∧ c ∈ vs := by
  unfold dimMatches
  cases hl : List.lookup e r with
  | none => simp
  | some v => cases v <;> simp [valueInPartitions]

/-- Rows matching the `red` slice never match the `blue` slice: the two
static partition keys have disjoint predicates on the same column. -/
theorem redSlice_blueSlice_disjoint (r : Row)
    (h : rowMatchesSlice redSlice r = true) :
    rowMatchesSlice blueSlice r = false := by
  have hred := (dimMatches_categories "color" "color" ["red"] r).mp
    (by simpa [rowMatchesSlice, redSlice] using h)
  obtain ⟨c, hl, hc⟩ := hred
  have hcr : c = "red" := by simpa using hc
  subst hcr
  have hblue : ¬ dimMatches ⟨"color", "color", .categories ["blue"]⟩ r = true := by
    rw [dimMatches_categories]
    rintro ⟨c', hl', hc'⟩
    rw [hl] at hl'
    have hc'' : c' = "red" := by
      have := Option.some.inj hl'
      have := Value.str.inj this
      exact this.symm
    subst hc''
    simp at hc'
  simpa [rowMatchesSlice, blueSlice, redSlice] using
    Bool.eq_false_iff.mpr hblue

/-! ### Claims -/

/-- C1: Writing to the same partition key twice is idempotent-by-
replacement: for every table, slice (partition key) and payloads D1, D2
whose rows belong to the addressed slice, executing write with D1 and then
write with D2 leaves the rows addressed by the slice equal to exactly D2's
rows, and the row count within that partition equals D2's row count —
prior contents for that key are replaced, not accumulated. -/
theorem write_twice_same_key_replaces (s : TableSlice) (D1 D2 t : Table)
    (h2 : ∀ r ∈ D2, rowMatchesSlice s r = true) :
    read s (write s D2 (write s D1 t)) = D2 ∧
      (read s (write s D2 (write s D1 t))).length = D2.length := by
  have hmain : read s (write s D2 (write s D1 t)) = D2 := by
    cases hd : s.partition_dimensions with
    | nil =>
      rw [write_dims_empty s D2 _ hd, read_dims_empty s D2 hd]
    | cons d ds =>
      rw [write_dims_cons s D2 _ d ds hd]
      unfold read
      rw [List.filter_append, filter_not_filter, List.nil_append]
      exact List.filter_eq_self.mpr h2
  exact ⟨hmain, by rw [hmain]⟩

/-- Witness for C1: the static-partition scenario of the test suite —
partition `red` written with value `1` then re-written with value `3`:
the slice reads back exactly the three value-`3` rows. -/
theorem write_twice_same_key_replaces_witness :
    (∀ r ∈ colorRows "red" "3", rowMatchesSlice redSlice r = true) ∧
      (read redSlice
          (write redSlice (colorRows "red" "3")
            (write redSlice (colorRows "red" "1") [])) =
          colorRows "red" "3" ∧
        (read redSlice
            (write redSlice (colorRows "red" "3")
              (write redSlice (colorRows "red" "1") []))).length =
          (colorRows "red" "3").length) :=
  ⟨by decide,
   write_twice_same_key_replaces redSlice (colorRows "red" "1")
     (colorRows "red" "3") [] (by decide)⟩

/-- C2: Writes to distinct partition keys with disjoint predicates do not
interfere: writing D1 at the first key into an empty table and then D2 at
the second key leaves the first key's rows unchanged and both partitions
independently readable, and an unfiltered (whole-table) read returns the
union of both payloads, with total row count the sum of the payload
sizes. -/
theorem distinct_keys_no_interference (s1 s2 : TableSlice) (D1 D2 : Table)
    (hne2 : s2.partition_dimensions ≠ [])
    (hdisj : ∀ r : Row, rowMatchesSlice s1 r = true →
      rowMatchesSlice s2 r = false)
    (h1 : ∀ r ∈ D1, rowMatchesSlice s1 r = true)
    (h2 : ∀ r ∈ D2, rowMatchesSlice s2 r = true) :
    read s1 (write s2 D2 (write s1 D1 [])) = D1 ∧
      read s2 (write s2 D2 (write s1 D1 [])) = D2 ∧
      read (wholeTable s1) (write s2 D2 (write s1 D1 [])) = D1 ++ D2 ∧
      (read (wholeTable s1) (write s2 D2 (write s1 D1 []))).length =
        D1.length + D2.length := by
  have hm2D1 : ∀ r ∈ D1, rowMatchesSlice s2 r = false :=
    fun r hm => hdisj r (h1 r hm)
  have hm1D2 : ∀ r ∈ D2, rowMatchesSlice s1 r = false := by
    intro r hm
    cases hcase : rowMatchesSlice s1 r with
    | false => rfl
    | true =>
      have hfalse := hdisj r hcase
      rw [h2 r hm] at hfalse
      exact absurd hfalse (by simp)
  have hT : write s2 D2 (write s1 D1 []) = D1 ++ D2 := by
    rw [write_to_empty, write_nonempty_dims s2 D2 D1 hne2]
    have : List.filter (fun r => !rowMatchesSlice s2 r) D1 = D1 :=
      List.filter_eq_self.mpr (fun r hm => by simp [hm2D1 r hm])
    rw [this]
  rw [hT]
  refine ⟨?_, ?_, ?_, ?_⟩
  · unfold read
    rw [List.filter_append, List.filter_eq_self.mpr h1,
      List.filter_eq_nil_iff.mpr (fun r hm => by simp [hm1D2 r hm]),
      List.append_nil]
  · unfold read
    rw [List.filter_append, List.filter_eq_self.mpr h2,
      List.filter_eq_nil_iff.mpr (fun r hm => by simp [hm2D1 r hm]),
      List.nil_append]
  · exact read_wholeTable s1 (D1 ++ D2)
  · rw [read_wholeTable s1 (D1 ++ D2), List.length_append]

/-- Witness for C2: the test scenario — three `red` rows of value `1`,
then three `blue` rows of value `2`: both partitions read back intact and
the unfiltered read returns all six rows. -/
theorem distinct_keys_no_interference_witness :
    blueSlice.partition_dimensions ≠ [] ∧
      (∀ r : Row, rowMatchesSlice redSlice r = true →
        rowMatchesSlice blueSlice r = false) ∧
      (∀ r ∈ colorRows "red" "1", rowMatchesSlice redSlice r = true) ∧
      (∀ r ∈ colorRows "blue" "2", rowMatchesSlice blueSlice r = true) ∧
      (read redSlice
          (write blueSlice (colorRows "blue" "2")
            (write redSlice (colorRows "red" "1") [])) =
          colorRows "red" "1" ∧
        read blueSlice
            (write blueSlice (colorRows "blue" "2")
              (write redSlice (colorRows "red" "1") [])) =
          colorRows "blue" "2" ∧
        read (wholeTable redSlice)
            (write blueSlice (colorRows "blue" "2")
              (write redSlice (colorRows "red" "1") [])) =
          colorRows "red" "1" ++ colorRows "blue" "2" ∧
        (read (wholeTable redSlice)
            (write blueSlice (colorRows "blue" "2")
              (write redSlice (colorRows "red" "1") []))).length =
          (colorRows "red" "1").length + (colorRows "blue" "2").length) :=
  ⟨by decide, redSlice_blueSlice_disjoint, by decide, by decide,
   distinct_keys_no_interference redSlice blueSlice (colorRows "red" "1")
     (colorRows "blue" "2") (by decide) redSlice_blueSlice_disjoint
     (by decide) (by decide)⟩

/-- C3: The row-selecting predicate of a multi-dimensional partition key is
the conjunction of the per-dimension predicates: a row belongs to the
addressed slice iff it satisfies every dimension's predicate; consequently
a write at a composite key leaves intact every stored row failing some
dimension of the key, and a slice addressing only one dimension (no filter
on the others) selects every row satisfying that dimension alone. -/
theorem multi_dimension_predicate_conjunction (s : TableSlice) (row r : Row)
    (t D : Table) (d cd : PartitionDimension)
    (hr : r ∈ t) (hd : d ∈ s.partition_dimensions)
    (hdm : dimMatches d r = false) (hcd : dimMatches cd r = true) :
    (rowMatchesSlice s row = true ↔
      ∀ d' ∈ s.partition_dimensions, dimMatches d' row = true) ∧
      r ∈ write s D t ∧
      r ∈ read { s with partition_dimensions := [cd] } t := by
  refine ⟨?_, ?_, ?_⟩
  · unfold rowMatchesSlice
    exact List.all_eq_true
  · have hne : s.partition_dimensions ≠ [] := by
      intro h0
      rw [h0] at hd
      exact absurd hd (List.not_mem_nil d)
    rw [write_nonempty_dims s D t hne]
    apply List.mem_append_left
    apply List.mem_filter.mpr
    refine ⟨hr, ?_⟩
    have hfail : rowMatchesSlice s r = false := by
      rw [Bool.eq_false_iff]
      intro hall
      have := List.all_eq_true.mp hall d hd
      rw [hdm] at this
      exact Bool.false_ne_true this
    simp [hfail]
  · apply List.mem_filter.mpr
    exact ⟨hr, by simp [rowMatchesSlice, hcd]⟩

/-- Witness for C3: the test's multi-partition scenario — with the slice
at key `{time: day 0, color: red}`, the stored row at `{time: day 1,
color: red}` fails the time dimension, survives the write, and is selected
by the color-only slice addressing `red` with no time filter. -/
theorem multi_dimension_predicate_conjunction_witness :
    multiRow 1 "red" "3" ∈ [multiRow 1 "red" "3"] ∧
      timeDim 0 ∈ (multiSlice 0 "red").partition_dimensions ∧
      dimMatches (timeDim 0) (multiRow 1 "red" "3") = false ∧
      dimMatches (colorDim "red") (multiRow 1 "red" "3") = true ∧
      ((rowMatchesSlice (multiSlice 0 "red") (multiRow 1 "red" "3") = true ↔
        ∀ d' ∈ (multiSlice 0 "red").partition_dimensions,
          dimMatches d' (multiRow 1 "red" "3") = true) ∧
        multiRow 1 "red" "3" ∈
          write (multiSlice 0 "red") [] [multiRow 1 "red" "3"] ∧
        multiRow 1 "red" "3" ∈
          read { multiSlice 0 "red" with
            partition_dimensions := [colorDim "red"] } [multiRow 1 "red" "3"]) :=
  ⟨by decide, by decide, by decide, by decide,
   multi_dimension_predicate_conjunction (multiSlice 0 "red")
     (multiRow 1 "red" "3") (multiRow 1 "red" "3") [multiRow 1 "red" "3"] []
     (timeDim 0) (colorDim "red") (by decide) (by decide) (by decide)
     (by decide)⟩

/-- C4: A read whose slice predicate matches no rows is a valid, non-error
outcome returning zero rows; and the self-referential offset resolver
fails gracefully when the offset points before the partition space's
defined start — it resolves to no partition and the offset read yields an
empty result rather than an error. -/
theorem empty_read_and_offset_before_start (s : TableSlice) (t : Table)
    (h : ∀ r ∈ t, rowMatchesSlice s r = false)
    (base : TableSlice) (expr : String) (startDay key offset : Int)
    (hoff : key + offset < startDay) :
    read s t = [] ∧
      resolveOffsetKey startDay key offset = none ∧
      readOffsetPartition base expr startDay key offset t = [] := by
  have hnone : resolveOffsetKey startDay key offset = none := by
    simp [resolveOffsetKey, hoff]
  refine ⟨read_none_match s t h, hnone, ?_⟩
  simp [readOffsetPartition, hnone]

/-- Witness for C4: the self-dependent scenario at the first partition —
the day `-1` slice matches none of the rows of partition day `0`, and for
the first key (`key = startDay = 0`) the `-1` offset points before the
partition space's start, so the offset read is empty. -/
theorem empty_read_and_offset_before_start_witness :
    (∀ r ∈ [keyRow 0 "1"],
      rowMatchesSlice (dailySlice selfDepSlice "key" (-1)) r = false) ∧
      (0 : Int) + (-1) < 0 ∧
      (read (dailySlice selfDepSlice "key" (-1)) [keyRow 0 "1"] = [] ∧
        resolveOffsetKey 0 0 (-1) = none ∧
        readOffsetPartition selfDepSlice "key" 0 0 (-1) [keyRow 0 "1"] = []) :=
  ⟨by decide, by decide,
   empty_read_and_offset_before_start (dailySlice selfDepSlice "key" (-1))
     [keyRow 0 "1"] (by decide) selfDepSlice "key" 0 0 (-1) (by decide)⟩

/-- C5: Identifier quoting is idempotent and conservative: an identifier
already safe (alphanumeric/underscore, not starting with a digit, not a
reserved keyword) is returned unchanged; quoting is idempotent on every
identifier (quoting an already-quoted one is a no-op); and quoting any
identifier free of embedded double quotes — in particular one starting
with a digit, containing whitespace or punctuation, or a reserved
keyword — yields a form the store accepts in DDL and DML. -/
theorem identifier_quoting_conservative (s u : String)
    (hsafe : isSafeIdentifier s = true)
    (hu : u.data.all (fun c => !(c == '"')) = true) :
    quoteIdentifier s = s ∧
      (∀ w : String, quoteIdentifier (quoteIdentifier w) = quoteIdentifier w) ∧
      storeAccepts (quoteIdentifier u).data = true := by
  refine ⟨?_, ?_, ?_⟩
  · have hn : needsQuoting s.data = false := by
      simpa [isSafeIdentifier] using hsafe
    show String.mk (quoteChars s.data) = s
    rw [quoteChars_safe s.data hn]
  · intro w
    show String.mk (quoteChars (String.mk (quoteChars w.data)).data) =
      String.mk (quoteChars w.data)
    rw [show (String.mk (quoteChars w.data)).data = quoteChars w.data from rfl,
      quoteChars_idem]
  · show storeAccepts (quoteChars u.data) = true
    exact storeAccepts_quoteChars u.data hu

/-- Witness for C5: `col1` is already safe and quoting leaves it
unchanged; quoting the digit-leading `5foo` yields a store-accepted form;
idempotence holds for every identifier. -/
theorem identifier_quoting_conservative_witness :
    isSafeIdentifier "col1" = true ∧
      "5foo".data.all (fun c => !(c == '"')) = true ∧
      (quoteIdentifier "col1" = "col1" ∧
        (∀ w : String,
          quoteIdentifier (quoteIdentifier w) = quoteIdentifier w) ∧
        storeAccepts (quoteIdentifier "5foo").data = true) :=
  ⟨by decide, by decide,
   identifier_quoting_conservative "col1" "5foo" (by decide) (by decide)⟩

/-- C6: For every TableSlice with no partition dimensions and no column
projection the read protocol addresses the whole table: the generated
statement is exactly `SELECT * FROM database.schema.table`, with no WHERE
clause. -/
theorem select_whole_table (s : TableSlice)
    (hdims : s.partition_dimensions = []) (hcols : s.columns = none) :
    selectStatement s = "SELECT * FROM " ++ qualifiedName s := by
  unfold selectStatement
  rw [show selectList s = "*" by simp [selectList, hcols],
    show whereClause s = "" by simp [whereClause, hdims]]
  rw [String.append_empty]
  exact congrArg (fun x => x ++ qualifiedName s)
    (show ("SELECT " ++ "*" ++ " FROM " : String) = "SELECT * FROM " from rfl)

/-- Witness for C6: the slice of `test_load_input` generates exactly
`SELECT * FROM my_db.my_schema.my_table`. -/
theorem select_whole_table_witness :
    loadSlice.partition_dimensions = [] ∧ loadSlice.columns = none ∧
      selectStatement loadSlice = "SELECT * FROM " ++ qualifiedName loadSlice ∧
      selectStatement loadSlice = "SELECT * FROM my_db.my_schema.my_table" :=
  ⟨rfl, rfl, select_whole_table loadSlice rfl rfl, by decide⟩

/-- C7: Every write returns observability metadata containing the row
count written — equal to the dataframe's number of rows — and the inferred
column schema pairing each column name with its dtype; for an
unpartitioned slice the table after the write holds exactly that many
rows. -/
theorem handle_output_metadata (s : TableSlice) (df t : Table) (r : Row)
    (rest : Table) (hdf : df = r :: rest) :
    (handle_output s df t).2.rowCount = df.length ∧
      (handle_output s df t).2.dataframeColumns =
        r.map (fun p => (p.1, p.2.dtypeName)) ∧
      (s.partition_dimensions = [] →
        (handle_output s df t).1.length = (handle_output s df t).2.rowCount) := by
  refine ⟨rfl, ?_, ?_⟩
  · show inferSchema df = r.map (fun p => (p.1, p.2.dtypeName))
    rw [hdf]
    rfl
  · intro hdims
    show (write s df t).length = df.length
    rw [write_dims_empty s df t hdims]

/-- Witness for C7: the one-row dataframe of `test_handle_output` —
columns `col1: String` and `col2: Int64` — yields metadata with row count
1 and exactly that two-column schema. -/
theorem handle_output_metadata_witness :
    ([[("col1", Value.str "a"), ("col2", Value.int 1)]] : Table) =
        [("col1", Value.str "a"), ("col2", Value.int 1)] :: [] ∧
      ((handle_output loadSlice
            [[("col1", Value.str "a"), ("col2", Value.int 1)]] []).2.rowCount =
          ([[("col1", Value.str "a"), ("col2", Value.int 1)]] : Table).length ∧
        (handle_output loadSlice
            [[("col1", Value.str "a"), ("col2", Value.int 1)]] []).2.dataframeColumns =
          ([("col1", Value.str "a"), ("col2", Value.int 1)] : Row).map
            (fun p => (p.1, p.2.dtypeName)) ∧
        (loadSlice.partition_dimensions = [] →
          (handle_output loadSlice
              [[("col1", Value.str "a"), ("col2", Value.int 1)]] []).1.length =
            (handle_output loadSlice
                [[("col1", Value.str "a"), ("col2", Value.int 1)]] []).2.rowCount)) ∧
      (handle_output loadSlice
          [[("col1", Value.str "a"), ("col2", Value.int 1)]] []).2 =
        { rowCount := 1,
          dataframeColumns := [("col1", "String"), ("col2", "Int64")] } :=
  ⟨rfl,
   handle_output_metadata loadSlice
     [[("col1", Value.str "a"), ("col2", Value.int 1)]] []
     [("col1", Value.str "a"), ("col2", Value.int 1)] [] rfl,
   by decide⟩

/-- Values pass through unchanged when string conversion of time data is
not configured. -/
theorem convertValue_false_id (v : Value) : convertValue false v = v := by
  cases v <;> rfl

/-- C8: The read protocol preserves column semantic types: with string
conversion not configured, writing a dataframe (timestamp columns
included) and reading it back returns exactly the same rows — every
timestamp keeps its `Datetime` dtype and is not collapsed to a string. -/
theorem timestamps_preserved_round_trip (s : TableSlice) (df t : Table)
    (hdims : s.partition_dimensions = [])
    (hnames : ∀ r ∈ df, ∀ p ∈ r, lowerName p.1 = p.1) :
    load_input false (wholeTable s) (write s df t) = df ∧
      (∀ v : Value, convertValue false v = v) ∧
      (∀ ts : Int,
        (convertValue false (Value.timestamp ts)).dtypeName = "Datetime") := by
  refine ⟨?_, convertValue_false_id, fun ts => rfl⟩
  rw [write_dims_empty s df t hdims]
  unfold load_input
  rw [read_wholeTable]
  have hrow : ∀ r ∈ df,
      r.map (fun p => (lowerName p.1, convertValue false p.2)) = r := by
    intro r hr
    have hcell : ∀ p ∈ r,
        (lowerName p.1, convertValue false p.2) = p := by
      intro p hp
      rw [convertValue_false_id, hnames r hr p hp]
    calc r.map (fun p => (lowerName p.1, convertValue false p.2))
        = r.map id := List.map_congr_left hcell
      _ = r := List.map_id r
  calc df.map (fun r => r.map (fun p => (lowerName p.1, convertValue false p.2)))
      = df.map id := List.map_congr_left hrow
    _ = df := List.map_id df

/-- Witness for C8: the two-row timestamp dataframe of
`test_io_manager_with_snowflake_polars_timestamp_data` round-trips
unchanged, timestamps kept as `Datetime`. -/
theorem timestamps_preserved_round_trip_witness :
    loadSlice.partition_dimensions = [] ∧
      (∀ r ∈ ([[("foo", Value.str "bar"), ("date", Value.timestamp 100)],
          [("foo", Value.str "baz"), ("date", Value.timestamp 200)]] : Table),
        ∀ p ∈ r, lowerName p.1 = p.1) ∧
      (load_input false (wholeTable loadSlice)
          (write loadSlice
            [[("foo", Value.str "bar"), ("date", Value.timestamp 100)],
             [("foo", Value.str "baz"), ("date", Value.timestamp 200)]] []) =
          [[("foo", Value.str "bar"), ("date", Value.timestamp 100)],
           [("foo", Value.str "baz"), ("date", Value.timestamp 200)]] ∧
        (∀ v : Value, convertValue false v = v) ∧
        (∀ ts : Int,
          (convertValue false (Value.timestamp ts)).dtypeName = "Datetime")) :=
  ⟨rfl, by decide,
   timestamps_preserved_round_trip loadSlice
     [[("foo", Value.str "bar"), ("date", Value.timestamp 100)],
      [("foo", Value.str "baz"), ("date", Value.timestamp 200)]] []
     rfl (by decide)⟩

/-- C9: A TableSlice with an empty table name is rejected fail-fast with an
invalid-argument error by both the write and the read path, before the
store is touched (no table is produced, no statement issued); a partition
dimension referencing a name not among the asset's defined dimensions is
likewise an invalid-argument error. -/
theorem invalid_slice_fails_fast (definedDims : List String) (s : TableSlice)
    (df t : Table) (b : Bool) (h : s.table = "") :
    validateSlice definedDims s =
        .error (.invalidArgument "table slice must specify a table name") ∧
      handleOutputChecked definedDims s df t =
        .error (.invalidArgument "table slice must specify a table name") ∧
      loadInputChecked definedDims b s t =
        .error (.invalidArgument "table slice must specify a table name") ∧
      (∀ (s2 : TableSlice) (d : PartitionDimension),
        d ∈ s2.partition_dimensions → definedDims.contains d.name = false →
        ∃ m, validateSlice definedDims s2 = .error (.invalidArgument m)) := by
  have hv : validateSlice definedDims s =
      .error (.invalidArgument "table slice must specify a table name") := by
    unfold validateSlice
    rw [if_pos h]
  refine ⟨hv, ?_, ?_, ?_⟩
  · unfold handleOutputChecked
    rw [hv]
  · unfold loadInputChecked
    rw [hv]
  · intro s2 d hd hnd
    unfold validateSlice
    by_cases ht : s2.table = ""
    · rw [if_pos ht]
      exact ⟨_, rfl⟩
    · rw [if_neg ht]
      have hall : s2.partition_dimensions.all
          (fun d2 => definedDims.contains d2.name) = false := by
        rw [Bool.eq_false_iff]
        intro hall
        have := List.all_eq_true.mp hall d hd
        rw [hnd] at this
        exact Bool.false_ne_true this
      rw [if_neg (fun hc => absurd (hall.symm.trans hc) Bool.false_ne_true)]
      exact ⟨_, rfl⟩

/-- Witness for C9: the empty-table-name slice is rejected by both checked
paths with the invalid-argument error. -/
theorem invalid_slice_fails_fast_witness :
    ({ loadSlice with table := "" } : TableSlice).table = "" ∧
      (validateSlice [] { loadSlice with table := "" } =
          .error (.invalidArgument "table slice must specify a table name") ∧
        handleOutputChecked [] { loadSlice with table := "" } [] [] =
          .error (.invalidArgument "table slice must specify a table name") ∧
        loadInputChecked [] false { loadSlice with table := "" } [] =
          .error (.invalidArgument "table slice must specify a table name") ∧
        (∀ (s2 : TableSlice) (d : PartitionDimension),
          d ∈ s2.partition_dimensions → List.contains [] d.name = false →
          ∃ m, validateSlice [] s2 = .error (.invalidArgument m))) :=
  ⟨rfl,
   invalid_slice_fails_fast [] { loadSlice with table := "" } [] [] false rfl⟩

/-- C10: `load_input` lowercases column names on read: the result set's
columns, reported uppercased by the store, come back lowercased, so a
dataframe written with lowercase column names round-trips to the same
column names; in general every loaded column name is the lowercasing of
the reported one. -/
theorem load_input_lowercases_names (df : Table) (s : TableSlice)
    (hnames : ∀ r ∈ df, ∀ p ∈ r, lowerName (upperName p.1) = p.1) :
    load_input false (wholeTable s) (df.map uppercaseRow) = df ∧
      (∀ t : Table, load_input false (wholeTable s) t =
        t.map (fun r => r.map
          (fun p => (lowerName p.1, convertValue false p.2)))) := by
  have hgen : ∀ t : Table, load_input false (wholeTable s) t =
      t.map (fun r => r.map
        (fun p => (lowerName p.1, convertValue false p.2))) := by
    intro t
    unfold load_input
    rw [read_wholeTable]
  refine ⟨?_, hgen⟩
  rw [hgen, List.map_map]
  have hrow : ∀ r ∈ df,
      ((fun r2 : Row => r2.map
          (fun p => (lowerName p.1, convertValue false p.2))) ∘ uppercaseRow)
        r = r := by
    intro r hr
    show (uppercaseRow r).map
      (fun p => (lowerName p.1, convertValue false p.2)) = r
    unfold uppercaseRow
    rw [List.map_map]
    have hcell : ∀ p ∈ r,
        ((fun p2 : String × Value =>
            (lowerName p2.1, convertValue false p2.2)) ∘
          fun p2 => (upperName p2.1, p2.2)) p = p := by
      intro p hp
      show (lowerName (upperName p.1), convertValue false p.2) = p
      rw [convertValue_false_id, hnames r hr p hp]
    calc r.map _ = r.map id := List.map_congr_left hcell
      _ = r := List.map_id r
  calc df.map _ = df.map id := List.map_congr_left hrow
    _ = df := List.map_id df

/-- Witness for C10: the `test_load_input` round trip — columns `col1`,
`col2` written lowercase, reported by the store as `COL1`, `COL2`, loaded
back as `col1`, `col2` with the original row intact. -/
theorem load_input_lowercases_names_witness :
    (∀ r ∈ ([[("col1", Value.str "a"), ("col2", Value.int 1)]] : Table),
      ∀ p ∈ r, lowerName (upperName p.1) = p.1) ∧
      (load_input false (wholeTable loadSlice)
          (([[("col1", Value.str "a"), ("col2", Value.int 1)]] : Table).map
            uppercaseRow) =
          [[("col1", Value.str "a"), ("col2", Value.int 1)]] ∧
        (∀ t : Table, load_input false (wholeTable loadSlice) t =
          t.map (fun r => r.map
            (fun p => (lowerName p.1, convertValue false p.2))))) :=
  ⟨by decide,
   load_input_lowercases_names
     [[("col1", Value.str "a"), ("col2", Value.int 1)]] loadSlice (by decide)⟩

end Dagster
